import Mathlib

/-!
Shallow embedding of the Volovo Putevoy front-end calculation core
(src/putevoy/js/app.js): the width-coefficient row calculator
(coeffByWidth, recalcRowKm), the totals aggregator (recalcTotals), the
route catalog loader (loadRoutes over a JS Map) and the trip-geometry
normalizer (normalizeLatLngsFromTrip, renderTripsFromApiData).

Modelling conventions:
* A JavaScript number is an Option ℚ: some q is a finite value, none
  stands for NaN or an infinity (everything Number.isFinite rejects).
* The text content of a DOM cell is a CellText: CellText.empty is the
  empty string (note that in JavaScript Number of the empty string is 0,
  not NaN), CellText.numStr q is a decimal numeral whose parse, after
  the comma-to-dot replacement the code performs, is q, and
  CellText.junk is text whose parse is NaN.
* toFixed with 2 digits is modelled exactly per the ECMAScript
  specification on the rational value: round to the nearest multiple of
  1/100, ties away from zero toward the larger integer of the scaled
  magnitude (the specification negates first, so the magnitude rounds
  half up and the sign is re-applied).
-/

namespace Volovo

/-- Text content of a table cell, abstracted by how the code parses it. -/
inductive CellText where
  | empty : CellText
  | numStr : ℚ → CellText
  | junk : CellText
deriving DecidableEq

/-- Parse of a cell text: the code computes
Number of the text with commas replaced by dots and then tests
Number.isFinite.  The empty string parses to 0 (a JavaScript fact),
a numeral to its value, junk to NaN (modelled none). -/
def parseCell : CellText → Option ℚ
  | CellText.empty => some 0
  | CellText.numStr q => some q
  | CellText.junk => none

/-- Source numOr0 (app.js lines 193-196): the parsed number when finite,
otherwise 0. -/
def numOr0 (v : Option ℚ) : ℚ := v.getD 0

/-- Integer of hundredths produced by toFixed with 2 digits, per the
ECMAScript specification: for a negative argument the sign is split off
first, then the scaled magnitude rounds to the nearest integer with
ties to the larger integer. -/
def toFixed2Int (q : ℚ) : ℤ :=
  if q < 0 then -⌊-q * 100 + 1/2⌋ else ⌊q * 100 + 1/2⌋

/-- The rational value displayed by toFixed with 2 digits. -/
def round2 (q : ℚ) : ℚ := (toFixed2Int q : ℚ) / 100

/-- Decimal rendering of toFixed with 2 digits, with the dot replaced by
a comma as in source fmt2 (app.js lines 188-191). -/
def ratFixed2 (q : ℚ) : String :=
  let sgn := if q < 0 then "-" else ""
  let m := (toFixed2Int q).natAbs
  sgn ++ toString (m / 100) ++ "," ++ (if m % 100 < 10 then "0" else "") ++ toString (m % 100)

/-- Source fmt2 as it lands in a table cell: NaN (and the other values
fmt2 maps to the empty string) gives an empty cell, a number gives the
numeral printed by toFixed with 2 digits, which parses back to round2
of the value. -/
def fmt2Cell : Option ℚ → CellText
  | none => CellText.empty
  | some q => CellText.numStr (round2 q)

/-- Source fmt2 as a string, for cells that are only written, never
parsed back (the totals row). -/
def fmt2Str : Option ℚ → String
  | none => ""
  | some q => ratFixed2 q

/-- Source fmt2Safe (app.js lines 311-314): format when the stored raw
value parses to a finite number, otherwise the empty string. -/
def fmt2Safe (x : Option ℚ) : CellText :=
  match x with
  | some n => CellText.numStr (round2 n)
  | none => CellText.empty

/-- Integer of tenths produced by toFixed with 1 digit. -/
def toFixed1Int (q : ℚ) : ℤ :=
  if q < 0 then -⌊-q * 10 + 1/2⌋ else ⌊q * 10 + 1/2⌋

/-- The rational value displayed by toFixed with 1 digit. -/
def round1 (q : ℚ) : ℚ := (toFixed1Int q : ℚ) / 10

/-- Source fmt1Safe (app.js lines 315-319). -/
def fmt1Safe (x : Option ℚ) : CellText :=
  match x with
  | some n => CellText.numStr (round1 n)
  | none => CellText.empty

/-- One route assignment row of the form: whether a route is selected
(the route select exists and has a non-empty value), the parse of the
tonnage input, and the text of the width, length and computed-km cells. -/
structure Row where
  routeSelected : Bool
  tonsText : Option ℚ
  widthCell : CellText
  lengthCell : CellText
  kmCell : CellText
deriving DecidableEq

/-- Source getRowWidth (app.js lines 224-228): parse the width cell text
(comma to dot, then Number), NaN when the element is missing or the
parse is not finite.  Since the final isFinite test maps non-finite to
NaN again, this is exactly the cell parse. -/
def getRowWidth (c : CellText) : Option ℚ := parseCell c

/-- Source coeffByWidth (app.js lines 217-222).  A NaN width fails both
absolute-difference comparisons, so it falls through to 1.2. -/
def coeffByWidth (widthM : Option ℚ) : ℚ :=
  match widthM with
  | some w => if |w - 7| < 1/100 then 7/5 else if |w - 6| < 1/100 then 6/5 else 6/5
  | none => 6/5

/-- Source recalcRowKm (app.js lines 230-259), as the text it writes
into the km cell: empty when no route is selected or the tonnage is not
positive, otherwise tonnage over the width coefficient, clamped to the
parsed length-cell value when that parse is finite and exceeded. -/
def recalcRowKm (row : Row) : CellText :=
  if row.routeSelected = false then CellText.empty
  else
    let tons := numOr0 row.tonsText
    if tons ≤ 0 then CellText.empty
    else
      let k := coeffByWidth (getRowWidth row.widthCell)
      let km := tons / k
      let km2 :=
        match parseCell row.lengthCell with
        | some maxLen => if maxLen < km then maxLen else km
        | none => km
      fmt2Cell (some km2)

/-- The uncapped quotient computed at app.js line 250. -/
def rawKm (row : Row) : ℚ :=
  numOr0 row.tonsText / coeffByWidth (getRowWidth row.widthCell)

/-- The quotient after the cap of app.js lines 252-256. -/
def cappedKm (row : Row) : ℚ :=
  match parseCell row.lengthCell with
  | some maxLen => if maxLen < rawKm row then maxLen else rawKm row
  | none => rawKm row

/-- The allocation of a row: defined exactly when a route is selected
and the parsed tonnage is positive. -/
def allocatedDistance (row : Row) : Option ℚ :=
  if row.routeSelected = true ∧ 0 < numOr0 row.tonsText then some (cappedKm row) else none

/-- Source VEHICLES (app.js lines 48-54): oid, display name, tonnage. -/
def VEHICLES : List (ℚ × String × ℚ) :=
  [(716, "КАМАЗ 532150 Е015НВ48 (дут)", 9),
   (719, "КАМАЗ 532150 М435КХ48 (дут)", 9),
   (182, "Камаз О537КР48 (дут)", 14),
   (432, "Камаз М968ОН48 (дут)", 14),
   (717, "КАМАЗ ЭД-405А Е102КХ48 (дут)", 9)]

/-- Source getVehicleTonnage (app.js lines 211-215): parse of the oid
select value, Map lookup, tonnage of the hit or 0.  A NaN key (none)
matches nothing. -/
def getVehicleTonnage (oid : Option ℚ) : ℚ :=
  match oid with
  | none => 0
  | some q =>
    match VEHICLES.find? (fun p => p.1 == q) with
    | some p => p.2.2
    | none => 0

/-- The tonnage-sum loop of recalcTotals (app.js lines 263-267). -/
def tonsSumOf (rows : List Row) : ℚ :=
  rows.foldl (fun acc r => acc + numOr0 r.tonsText) 0

/-- The km-sum loop of recalcTotals (app.js lines 271-276): parse each
km cell, add the value when the parse is finite, skip NaN.  Note an
empty cell parses to 0 and is added as 0. -/
def kmSumOf (rows : List Row) : ℚ :=
  rows.foldl (fun acc r =>
    match parseCell r.kmCell with
    | some n => acc + n
    | none => acc) 0

/-- The trip-count loop of recalcTotals (app.js lines 283-287). -/
def tripsCountOf (rows : List Row) : Nat :=
  rows.foldl (fun acc r => if r.routeSelected then acc + 1 else acc) 0

/-- The em-dash placeholder used by recalcTotals. -/
def emDash : String := "—"

/-- The five cells recalcTotals writes. -/
structure TotalsDisplay where
  totalTonsSumCell : String
  totalKmSumCell : String
  vehicleTonnageCell : String
  tripsCountCell : String
  totalTonsCell : String
deriving DecidableEq

/-- Source recalcTotals (app.js lines 261-291).  The totals-row cells
are written unconditionally with fmt2; only the vehicle-panel cells use
the em-dash placeholder when the value is falsy (zero). -/
def recalcTotals (rows : List Row) (oid : Option ℚ) : TotalsDisplay :=
  let tonsSum := tonsSumOf rows
  let kmSum := kmSumOf rows
  let tonnage := getVehicleTonnage oid
  let trips := tripsCountOf rows
  { totalTonsSumCell := fmt2Str (some tonsSum)
    totalKmSumCell := fmt2Str (some kmSum)
    vehicleTonnageCell := if tonnage ≠ 0 then fmt2Str (some tonnage) else emDash
    tripsCountCell := if trips ≠ 0 then toString trips else emDash
    totalTonsCell := if tonsSum ≠ 0 then fmt2Str (some tonsSum) else emDash }

/-- Stored attributes of one catalog route (app.js line 57: the value
part of the ROUTES map).  Raw backend values are kept by their eventual
numeric parse: none for absent or non-numeric. -/
structure RouteVal where
  road_width_m : Option ℚ
  road_length_km : Option ℚ
  pss_tonnage_t : Option ℚ
deriving DecidableEq

/-- One raw backend route entry as consumed by loadRoutes. -/
structure RawRoute where
  name : Option String
  road_width_m : Option ℚ
  road_length_km : Option ℚ
  pss_tonnage_t : Option ℚ
deriving DecidableEq

/-- The ROUTES map, as an insertion-ordered association list. -/
def Catalog := List (String × RouteVal)

/-- The names of the catalog in Map iteration order. -/
def catalogKeys (m : Catalog) : List String := m.map Prod.fst

/-- JavaScript Map.set: replace the value of an existing key in place
(keeping its position), otherwise append the new entry at the end. -/
def mapSet : Catalog → String → RouteVal → Catalog
  | [], k, v => [(k, v)]
  | p :: m, k, v => if p.1 = k then (k, v) :: m else p :: mapSet m k v

/-- JavaScript Map.get: value of the first entry with the key. -/
def mapGet (m : Catalog) (k : String) : Option RouteVal :=
  (List.find? (fun p => p.1 == k) m).map Prod.snd

/-- The guard and payload of one loop step of loadRoutes (app.js lines
366-373): entries whose name is missing or empty (falsy) are skipped. -/
def routeEntry (r : RawRoute) : Option (String × RouteVal) :=
  match r.name with
  | none => none
  | some n =>
    if n = "" then none
    else some (n, ⟨r.road_width_m, r.road_length_km, r.pss_tonnage_t⟩)

/-- Source loadRoutes catalog rebuild (app.js lines 363-373): clear the
map, then Map.set each named entry. -/
def loadRoutes (routes : List RawRoute) : Catalog :=
  routes.foldl (fun m r =>
    match routeEntry r with
    | none => m
    | some (n, v) => mapSet m n v) []

/-- Modelled from the spec: deduplication keeping the first occurrence
of each name, in order, as section 4.1 describes the names sequence. -/
def dedupFirst (l : List String) : List String :=
  l.foldl (fun acc n => if n ∈ acc then acc else acc ++ [n]) []

/-- The raw entries that survive the name guard, in order. -/
def validEntries (routes : List RawRoute) : List (String × RouteVal) :=
  routes.filterMap routeEntry

/-- The value of the last surviving entry carrying a given name. -/
def lastEntryFor (routes : List RawRoute) (n : String) : Option RouteVal :=
  (List.find? (fun p => p.1 == n) (validEntries routes).reverse).map Prod.snd

/-- One point object of a points array, by the parses of its lat and
lon fields. -/
structure PtObj where
  lat : Option ℚ
  lon : Option ℚ
deriving DecidableEq

/-- One element of a coords array: either an array (whose first two
elements parse as given) or a non-array value. -/
inductive CoordItem where
  | pair : Option ℚ → Option ℚ → CoordItem
  | notArray : CoordItem
deriving DecidableEq

/-- One backend trip record, by the fields the normalizer reads. -/
structure Trip where
  coords : Option (List CoordItem)
  points : Option (List PtObj)
deriving DecidableEq

/-- The map stage of the coords pipeline (app.js line 69): an array
item becomes the pair of its parsed components, a non-array item
becomes null. -/
def mapCoordItem : CoordItem → Option (Option ℚ × Option ℚ)
  | CoordItem.pair x y => some (x, y)
  | CoordItem.notArray => none

/-- The coords pipeline of normalizeLatLngsFromTrip (app.js lines
68-70): map, then filter truthy pairs with both components finite; the
final extraction is the type-level reading of the surviving entries. -/
def coordsLL (cs : List CoordItem) : List (ℚ × ℚ) :=
  ((cs.map mapCoordItem).filter
      (fun p =>
        match p with
        | some (some _, some _) => true
        | _ => false)).filterMap
    (fun p =>
      match p with
      | some (some a, some b) => some (a, b)
      | _ => none)

/-- The points pipeline (app.js lines 76-78 and 131-133): map each
object to its parsed pair, keep those with both components finite. -/
def pointsLL (ps : List PtObj) : List (ℚ × ℚ) :=
  ((ps.map (fun p => (p.lat, p.lon))).filter
      (fun p => p.1.isSome && p.2.isSome)).filterMap
    (fun p =>
      match p with
      | (some a, some b) => some (a, b)
      | _ => none)

/-- The one-step valid parse of a coords item: some pair exactly when
the item is an array with both components finite. -/
def parseCoordItem : CoordItem → Option (ℚ × ℚ)
  | CoordItem.pair (some a) (some b) => some (a, b)
  | _ => none

/-- The one-step valid parse of a points object. -/
def parsePtObj (p : PtObj) : Option (ℚ × ℚ) :=
  match p.lat, p.lon with
  | some a, some b => some (a, b)
  | _, _ => none

/-- The points branch of normalizeLatLngsFromTrip (app.js lines 74-80
and the final return of line 82). -/
def normalizePoints (trip : Trip) : List (ℚ × ℚ) :=
  match trip.points with
  | some ps =>
    if ps.isEmpty then []
    else
      let ll := pointsLL ps
      if ll.isEmpty then [] else ll
  | none => []

/-- Source normalizeLatLngsFromTrip (app.js lines 65-83): try the
coords field first; when it is an array with elements and yields at
least one valid pair, that is the answer, otherwise fall through to the
points field, otherwise the empty list. -/
def normalizeLatLngsFromTrip (trip : Trip) : List (ℚ × ℚ) :=
  match trip.coords with
  | some cs =>
    if cs.isEmpty then normalizePoints trip
    else
      let ll := coordsLL cs
      if ll.isEmpty then normalizePoints trip else ll
  | none => normalizePoints trip

/-- One backend geometry payload, by the tests the renderer performs:
whether its type discriminator equals the FeatureCollection tag, the
feature count when the features field is an array, the trips field, the
payload itself when it is an array, and the points field. -/
structure ApiData where
  typeIsFC : Bool
  features : Option Nat
  trips : Option (List Trip)
  selfArray : Option (List Trip)
  points : Option (List PtObj)
deriving DecidableEq

/-- The observable outcome of renderTripsFromApiData: which branch ran,
the polylines it produced and the count its summary label reports. -/
inductive RenderResult where
  | geoJSON : Nat → RenderResult
  | tripLines : List (List (ℚ × ℚ)) → Nat → RenderResult
  | flatLine : List (ℚ × ℚ) → RenderResult
  | notFound : RenderResult
deriving DecidableEq

/-- The loop body of the trips branch (app.js lines 108-115): skip a
trip with fewer than two valid points, otherwise append its polyline
and count it. -/
def tripStep (acc : List (List (ℚ × ℚ)) × Nat) (t : Trip) :
    List (List (ℚ × ℚ)) × Nat :=
  let ll := normalizeLatLngsFromTrip t
  if ll.length < 2 then acc else (acc.1 ++ [ll], acc.2 + 1)

/-- Source renderTripsFromApiData (app.js lines 85-145): GeoJSON branch
first, then the trips branch (the trips field, or the payload itself
when it is an array), then the flat points branch, then the empty
outcome. -/
def renderTripsFromApiData (data : ApiData) : RenderResult :=
  if data.typeIsFC = true ∧ data.features.isSome then
    RenderResult.geoJSON (data.features.getD 0)
  else
    let trips :=
      match data.trips with
      | some ts => ts
      | none =>
        match data.selfArray with
        | some ts => ts
        | none => []
    if trips.isEmpty then
      match data.points with
      | some pts =>
        if pts.isEmpty then RenderResult.notFound
        else
          let ll := pointsLL pts
          if 2 ≤ ll.length then RenderResult.flatLine ll else RenderResult.notFound
      | none => RenderResult.notFound
    else
      let acc := trips.foldl tripStep ([], 0)
      RenderResult.tripLines acc.1 acc.2

/-- The per-trip polyline selection the trips branch performs. -/
def goodPoly (t : Trip) : Option (List (ℚ × ℚ)) :=
  let ll := normalizeLatLngsFromTrip t
  if ll.length < 2 then none else some ll

theorem coeffByWidth_cases (w : Option ℚ) :
    coeffByWidth w = 7/5 ∨ coeffByWidth w = 6/5 := by
  cases w with
  | none => right; rfl
  | some q =>
    simp only [coeffByWidth]
    split_ifs
    · left; rfl
    · right; rfl
    · right; rfl

theorem coeffByWidth_pos (w : Option ℚ) : 0 < coeffByWidth w := by
  rcases coeffByWidth_cases w with h | h <;> rw [h] <;> norm_num

theorem coeffByWidth_ne_zero (w : Option ℚ) : coeffByWidth w ≠ 0 :=
  ne_of_gt (coeffByWidth_pos w)

theorem recalcRowKm_eq_alloc (row : Row) :
    recalcRowKm row =
      match allocatedDistance row with
      | some km => CellText.numStr (round2 km)
      | none => CellText.empty := by
  unfold recalcRowKm allocatedDistance cappedKm rawKm fmt2Cell
  cases hb : row.routeSelected with
  | false => simp [hb]
  | true =>
    by_cases ht : numOr0 row.tonsText ≤ 0
    · have h0 : ¬ (0 < numOr0 row.tonsText) := not_lt.mpr ht
      simp [hb, ht, h0]
    · have h0 : 0 < numOr0 row.tonsText := lt_of_not_ge ht
      simp [hb, ht, h0]

theorem allocatedDistance_defined (row : Row) (hr : row.routeSelected = true)
    (ht : 0 < numOr0 row.tonsText) :
    allocatedDistance row = some (cappedKm row) := by
  unfold allocatedDistance
  rw [if_pos ⟨hr, ht⟩]

/-- C1: for a row with a selected route and positive parsed tonnage the
allocated distance is the tonnage divided by the width coefficient, and
that coefficient is 1.4 when the parsed width is within 0.01 of 7, 1.2
when it is within 0.01 of 6, and 1.2 for every other width, including
an absent or unparsed width. -/
theorem C1_width_coefficient (row : Row) (hr : row.routeSelected = true)
    (ht : 0 < numOr0 row.tonsText) :
    rawKm row = numOr0 row.tonsText / coeffByWidth (getRowWidth row.widthCell) ∧
    recalcRowKm row = CellText.numStr (round2 (cappedKm row)) ∧
    (∀ w : ℚ, getRowWidth row.widthCell = some w → |w - 7| < 1/100 →
      coeffByWidth (getRowWidth row.widthCell) = 7/5) ∧
    (∀ w : ℚ, getRowWidth row.widthCell = some w → |w - 6| < 1/100 →
      coeffByWidth (getRowWidth row.widthCell) = 6/5) ∧
    (∀ w : ℚ, getRowWidth row.widthCell = some w → ¬ |w - 7| < 1/100 →
      coeffByWidth (getRowWidth row.widthCell) = 6/5) ∧
    (getRowWidth row.widthCell = none → coeffByWidth (getRowWidth row.widthCell) = 6/5) := by
  refine ⟨rfl, ?_, ?_, ?_, ?_, ?_⟩
  · rw [recalcRowKm_eq_alloc, allocatedDistance_defined row hr ht]
  · intro w hw h7
    rw [hw]
    simp only [coeffByWidth]
    rw [if_pos h7]
  · intro w hw h6
    have h7 : ¬ |w - 7| < 1/100 := by
      rw [abs_lt] at h6 ⊢
      intro hc
      rcases h6 with ⟨h6a, h6b⟩
      rcases hc with ⟨hca, hcb⟩
      linarith
    rw [hw]
    simp only [coeffByWidth]
    rw [if_neg h7, if_pos h6]
  · intro w hw h7
    rw [hw]
    simp only [coeffByWidth]
    rw [if_neg h7]
    split_ifs <;> rfl
  · intro hn
    rw [hn]
    rfl

theorem C1_width_coefficient_witness :
    rawKm ⟨true, some 20, CellText.numStr 7, CellText.numStr 10, CellText.empty⟩
        = numOr0 (some 20) / coeffByWidth (getRowWidth (CellText.numStr 7)) ∧
    coeffByWidth (getRowWidth (CellText.numStr 7)) = 7/5 := by
  constructor
  · exact (C1_width_coefficient
      ⟨true, some 20, CellText.numStr 7, CellText.numStr 10, CellText.empty⟩
      rfl (by norm_num [numOr0])).1
  · exact (C1_width_coefficient
      ⟨true, some 20, CellText.numStr 7, CellText.numStr 10, CellText.empty⟩
      rfl (by norm_num [numOr0])).2.2.1 7 rfl (by norm_num)

/-- C2 counterexample: a row with a selected route, tonnage 5 and width
7 whose length cell is empty (the route's road length is missing).  The
claim demands the raw value 25/7, displayed as 3,57; the code parses
the empty cell as 0 (a finite number), clamps to it and displays 0,00. -/
theorem C2_missing_length_cex :
    recalcRowKm ⟨true, some 5, CellText.numStr 7, CellText.empty, CellText.empty⟩
        = CellText.numStr 0 ∧
    rawKm ⟨true, some 5, CellText.numStr 7, CellText.empty, CellText.empty⟩ = 25/7 ∧
    fmt2Cell (some (25/7)) = CellText.numStr (357/100) ∧
    CellText.numStr (0 : ℚ) ≠ CellText.numStr (357/100) := by
  refine ⟨?_, ?_, ?_, ?_⟩
  · norm_num [recalcRowKm, numOr0, parseCell, getRowWidth, coeffByWidth, fmt2Cell,
      round2, toFixed2Int]
  · norm_num [rawKm, numOr0, parseCell, getRowWidth, coeffByWidth]
  · norm_num [fmt2Cell, round2, toFixed2Int, Int.floor_eq_iff]
  · intro hc
    have : (0 : ℚ) = 357/100 := CellText.numStr.inj hc
    norm_num at this

/-- C2 (amended): for a row with a selected route and positive parsed
tonnage, capping follows the parse of the length cell: non-numeric text
parses to NaN and performs no capping; a finite parse that is exceeded
clamps the value to it exactly; a finite parse that is not exceeded
leaves the value unchanged; and an empty (missing) length cell parses
to 0, so the positive raw value is clamped to 0 instead of standing. -/
theorem C2_cap_behavior (row : Row) (hr : row.routeSelected = true)
    (ht : 0 < numOr0 row.tonsText) :
    (row.lengthCell = CellText.junk → allocatedDistance row = some (rawKm row)) ∧
    (∀ m : ℚ, parseCell row.lengthCell = some m → m < rawKm row →
      allocatedDistance row = some m) ∧
    (∀ m : ℚ, parseCell row.lengthCell = some m → ¬ m < rawKm row →
      allocatedDistance row = some (rawKm row)) ∧
    (row.lengthCell = CellText.empty → allocatedDistance row = some 0) := by
  have halloc := allocatedDistance_defined row hr ht
  refine ⟨?_, ?_, ?_, ?_⟩
  · intro hj
    rw [halloc]
    simp only [cappedKm, hj, parseCell]
  · intro m hm hlt
    rw [halloc]
    simp only [cappedKm, hm]
    rw [if_pos hlt]
  · intro m hm hge
    rw [halloc]
    simp only [cappedKm, hm]
    rw [if_neg hge]
  · intro he
    have hpos : 0 < rawKm row := div_pos ht (coeffByWidth_pos _)
    rw [halloc]
    simp only [cappedKm, he, parseCell]
    rw [if_pos hpos]

theorem C2_cap_behavior_witness :
    allocatedDistance ⟨true, some 20, CellText.numStr 7, CellText.numStr 10, CellText.empty⟩
        = some 10 := by
  have h := (C2_cap_behavior
      ⟨true, some 20, CellText.numStr 7, CellText.numStr 10, CellText.empty⟩
      rfl (by norm_num [numOr0])).2.1 10 rfl
      (by norm_num [rawKm, numOr0, getRowWidth, parseCell, coeffByWidth])
  exact h

/-- C3: when no route is selected or the parsed tonnage is not
positive, the allocation is undefined and the km cell is written empty,
which is a different cell text from every formatted number, in
particular from a formatted zero. -/
theorem C3_undefined_allocation (row : Row)
    (h : row.routeSelected = false ∨ numOr0 row.tonsText ≤ 0) :
    recalcRowKm row = CellText.empty ∧
    allocatedDistance row = none ∧
    ∀ q : ℚ, CellText.empty ≠ CellText.numStr q := by
  have halloc : allocatedDistance row = none := by
    unfold allocatedDistance
    rcases h with h | h
    · rw [if_neg]
      intro hc
      rw [h] at hc
      exact Bool.false_ne_true hc.1
    · rw [if_neg]
      intro hc
      exact absurd hc.2 (not_lt.mpr h)
  refine ⟨?_, halloc, ?_⟩
  · rw [recalcRowKm_eq_alloc, halloc]
  · intro q hc
    exact CellText.noConfusion hc

theorem C3_undefined_allocation_witness :
    recalcRowKm ⟨false, some 5, CellText.empty, CellText.empty, CellText.empty⟩
        = CellText.empty ∧
    allocatedDistance ⟨true, some (-2), CellText.empty, CellText.empty, CellText.empty⟩
        = none := by
  constructor
  · exact (C3_undefined_allocation
      ⟨false, some 5, CellText.empty, CellText.empty, CellText.empty⟩ (Or.inl rfl)).1
  · exact (C3_undefined_allocation
      ⟨true, some (-2), CellText.empty, CellText.empty, CellText.empty⟩
      (Or.inr (by norm_num [numOr0]))).2.1

/-- C10: the width coefficient is always 1.4 or 1.2, hence strictly
positive and nonzero, so the tonnage division in the row calculation is
never a division by zero: multiplying the quotient back by the
coefficient recovers the tonnage, and a positive finite tonnage yields
a positive finite quotient. -/
theorem C10_coefficient_safety (w : Option ℚ) (row : Row) :
    (coeffByWidth w = 7/5 ∨ coeffByWidth w = 6/5) ∧
    0 < coeffByWidth w ∧
    coeffByWidth w ≠ 0 ∧
    rawKm row * coeffByWidth (getRowWidth row.widthCell) = numOr0 row.tonsText ∧
    (0 < numOr0 row.tonsText → 0 < rawKm row) := by
  refine ⟨coeffByWidth_cases w, coeffByWidth_pos w, coeffByWidth_ne_zero w, ?_, ?_⟩
  · exact div_mul_cancel₀ _ (coeffByWidth_ne_zero _)
  · intro ht
    exact div_pos ht (coeffByWidth_pos _)

theorem C10_coefficient_safety_witness :
    0 < rawKm ⟨true, some 3, CellText.junk, CellText.junk, CellText.empty⟩ :=
  (C10_coefficient_safety none
      ⟨true, some 3, CellText.junk, CellText.junk, CellText.empty⟩).2.2.2.2
    (by norm_num [numOr0])

theorem tonsSum_fold :
    ∀ (rows : List Row) (a : ℚ),
      rows.foldl (fun acc r => acc + numOr0 r.tonsText) a
        = a + (rows.map (fun r => numOr0 r.tonsText)).sum := by
  intro rows
  induction rows with
  | nil => intro a; simp
  | cons r rs ih =>
    intro a
    rw [List.foldl_cons, ih, List.map_cons, List.sum_cons]
    ring

theorem tonsSumOf_eq_sum (rows : List Row) :
    tonsSumOf rows = (rows.map (fun r => numOr0 r.tonsText)).sum := by
  rw [tonsSumOf, tonsSum_fold]
  ring

theorem kmSum_fold :
    ∀ (rows : List Row) (a : ℚ),
      rows.foldl (fun acc r =>
          match parseCell r.kmCell with
          | some n => acc + n
          | none => acc) a
        = a + (rows.map (fun r => (parseCell r.kmCell).getD 0)).sum := by
  intro rows
  induction rows with
  | nil => intro a; simp
  | cons r rs ih =>
    intro a
    rw [List.foldl_cons, List.map_cons, List.sum_cons]
    cases h : parseCell r.kmCell with
    | none => rw [ih]; simp [h]
    | some n => rw [ih]; simp [h]; ring

theorem kmSumOf_eq_sum (rows : List Row) :
    kmSumOf rows = (rows.map (fun r => (parseCell r.kmCell).getD 0)).sum := by
  rw [kmSumOf, kmSum_fold]
  ring

theorem parse_recalcRowKm (row : Row) :
    parseCell (recalcRowKm row)
      = some (match allocatedDistance row with
              | some km => round2 km
              | none => 0) := by
  rw [recalcRowKm_eq_alloc]
  cases h : allocatedDistance row <;> simp [parseCell]

/-- C6 counterexample: a row whose tonnage input parses to -3, which is
less than or equal to 0, contributes -3, not 0, to the tonnage sum. -/
theorem C6_negative_tonnage_cex :
    numOr0 (some (-3)) ≤ 0 ∧
    tonsSumOf [⟨false, some (-3), CellText.empty, CellText.empty, CellText.empty⟩] = -3 ∧
    (-3 : ℚ) ≠ 0 := by
  norm_num [tonsSumOf, numOr0]

/-- C6 (amended): the tonnage sum is the sum of numOr0 of every row's
tonnage input over all rows; rows are never excluded from the
iteration; a tonnage that fails to parse, and a parsed tonnage of
exactly 0, contribute exactly 0, but a parsed negative tonnage
contributes its (negative) value. -/
theorem C6_tonnage_sum (rows : List Row) :
    tonsSumOf rows = (rows.map (fun r => numOr0 r.tonsText)).sum ∧
    ∀ r ∈ rows, (r.tonsText = none ∨ r.tonsText = some 0) → numOr0 r.tonsText = 0 := by
  refine ⟨tonsSumOf_eq_sum rows, ?_⟩
  intro r _ h
  rcases h with h | h <;> simp [numOr0, h]

theorem C6_tonnage_sum_witness :
    numOr0 (Row.mk false none CellText.empty CellText.empty CellText.empty).tonsText = 0 :=
  (C6_tonnage_sum [⟨false, none, CellText.empty, CellText.empty, CellText.empty⟩]).2
    ⟨false, none, CellText.empty, CellText.empty, CellText.empty⟩
    (List.mem_singleton.mpr rfl) (Or.inl rfl)

/-- C7: in a state where every km cell holds exactly what recalcRowKm
wrote for its row (the steady state the event handlers maintain), the
km sum equals the sum of the rounded, displayed per-row distances over
exactly the rows with a defined allocation; rows with an undefined
allocation contribute nothing to the sum, and the unrounded
intermediate values are never accumulated. -/
theorem C7_distance_sum (rows : List Row)
    (h : ∀ r ∈ rows, r.kmCell = recalcRowKm r) :
    kmSumOf rows = ((rows.filterMap allocatedDistance).map round2).sum := by
  rw [kmSumOf_eq_sum]
  revert h
  induction rows with
  | nil => intro h; simp
  | cons r rs ih =>
    intro h
    have hr : r.kmCell = recalcRowKm r := h r (List.mem_cons_self r rs)
    have hrs : ∀ x ∈ rs, x.kmCell = recalcRowKm x :=
      fun x hx => h x (List.mem_cons_of_mem r hx)
    rw [List.map_cons, List.sum_cons, ih hrs, List.filterMap_cons]
    cases ha : allocatedDistance r with
    | none =>
      have : parseCell r.kmCell = some 0 := by rw [hr, parse_recalcRowKm, ha]
      simp [this]
    | some km =>
      have : parseCell r.kmCell = some (round2 km) := by rw [hr, parse_recalcRowKm, ha]
      simp [this]

theorem C7_distance_sum_witness :
    kmSumOf
      [⟨true, some 7, CellText.numStr 7, CellText.junk, CellText.numStr 5⟩,
       ⟨false, none, CellText.empty, CellText.empty, CellText.empty⟩] = 5 := by
  rw [C7_distance_sum]
  · norm_num [allocatedDistance, cappedKm, rawKm, numOr0, parseCell, getRowWidth,
      coeffByWidth, round2, toFixed2Int, List.filterMap_cons, List.filterMap_nil,
      List.map_cons, List.map_nil, List.sum_cons, List.sum_nil]
  · intro r hr
    rcases List.mem_cons.mp hr with h | h
    · rw [h]
      norm_num [recalcRowKm, numOr0, parseCell, getRowWidth, coeffByWidth, fmt2Cell,
        round2, toFixed2Int]
    · rw [List.mem_singleton.mp h]
      rfl

theorem ratFixed2_zero : ratFixed2 (0 : ℚ) = "0,00" := by
  have h0 : toFixed2Int 0 = 0 := by norm_num [toFixed2Int]
  have hneg : ¬ (0 : ℚ) < 0 := lt_irrefl 0
  simp only [ratFixed2, h0, if_neg hneg]
  rfl

/-- C5 counterexample: with no rows and no vehicle selected every sum
numerically equals zero, yet the distance-sum cell and the totals-row
tonnage-sum cell show 0,00, not the em-dash placeholder. -/
theorem C5_zero_display_cex :
    kmSumOf [] = 0 ∧
    tonsSumOf [] = 0 ∧
    (recalcTotals [] none).totalKmSumCell = "0,00" ∧
    (recalcTotals [] none).totalTonsSumCell = "0,00" ∧
    ("0,00" : String) ≠ "—" := by
  refine ⟨rfl, rfl, ?_, ?_, by decide⟩
  · show fmt2Str (some (kmSumOf [])) = "0,00"
    show ratFixed2 0 = "0,00"
    exact ratFixed2_zero
  · show fmt2Str (some (tonsSumOf [])) = "0,00"
    show ratFixed2 0 = "0,00"
    exact ratFixed2_zero

/-- C5 (amended): only the vehicle-capacity cell, the trip-count cell
and the vehicle-panel tonnage cell fall back to the em-dash when their
value is zero; the totals-row tonnage-sum and distance-sum cells are
always written with fmt2 and therefore show 0,00 when the sum is
numerically zero. -/
theorem C5_totals_display (rows : List Row) (oid : Option ℚ) :
    (recalcTotals rows oid).totalKmSumCell = fmt2Str (some (kmSumOf rows)) ∧
    (recalcTotals rows oid).totalTonsSumCell = fmt2Str (some (tonsSumOf rows)) ∧
    (getVehicleTonnage oid = 0 → (recalcTotals rows oid).vehicleTonnageCell = emDash) ∧
    (tripsCountOf rows = 0 → (recalcTotals rows oid).tripsCountCell = emDash) ∧
    (tonsSumOf rows = 0 → (recalcTotals rows oid).totalTonsCell = emDash) ∧
    (kmSumOf rows = 0 → (recalcTotals rows oid).totalKmSumCell = "0,00") := by
  refine ⟨rfl, rfl, ?_, ?_, ?_, ?_⟩
  · intro h
    simp [recalcTotals, h]
  · intro h
    simp [recalcTotals, h]
  · intro h
    simp [recalcTotals, h]
  · intro h
    show fmt2Str (some (kmSumOf rows)) = "0,00"
    rw [h]
    exact ratFixed2_zero

theorem C5_totals_display_witness :
    (recalcTotals [] none).vehicleTonnageCell = emDash ∧
    (recalcTotals [] none).tripsCountCell = emDash ∧
    (recalcTotals [] none).totalTonsCell = emDash ∧
    (recalcTotals [] none).totalKmSumCell = "0,00" :=
  ⟨(C5_totals_display [] none).2.2.1 rfl,
   (C5_totals_display [] none).2.2.2.1 rfl,
   (C5_totals_display [] none).2.2.2.2.1 rfl,
   (C5_totals_display [] none).2.2.2.2.2 rfl⟩

theorem catalogKeys_cons (p : String × RouteVal) (m : Catalog) :
    catalogKeys (p :: m) = p.1 :: catalogKeys m := rfl

theorem mapGet_cons (p : String × RouteVal) (m : Catalog) (n : String) :
    mapGet (p :: m) n = if p.1 = n then some p.2 else mapGet m n := by
  by_cases h : p.1 = n
  · have hb : (p.1 == n) = true := beq_iff_eq.mpr h
    simp [mapGet, List.find?, hb, h]
  · have hb : (p.1 == n) = false := beq_eq_false_iff_ne.mpr h
    simp [mapGet, List.find?, hb, h]

theorem catalogKeys_mapSet (m : Catalog) (k : String) (v : RouteVal) :
    catalogKeys (mapSet m k v)
      = if k ∈ catalogKeys m then catalogKeys m else catalogKeys m ++ [k] := by
  induction m with
  | nil => simp [mapSet, catalogKeys]
  | cons p m ih =>
    by_cases h : p.1 = k
    · rw [show mapSet (p :: m) k v = (k, v) :: m from by simp [mapSet, h]]
      have hk : k ∈ catalogKeys (p :: m) := by
        simp only [catalogKeys_cons, List.mem_cons]
        exact Or.inl h.symm
      rw [if_pos hk]
      simp [catalogKeys, h]
    · rw [show mapSet (p :: m) k v = p :: mapSet m k v from by simp [mapSet, h]]
      by_cases hm : k ∈ catalogKeys m
      · have hk : k ∈ catalogKeys (p :: m) := by
          simp only [catalogKeys_cons, List.mem_cons]
          exact Or.inr hm
        rw [if_pos hk, catalogKeys_cons, catalogKeys_cons, ih, if_pos hm]
      · have hk : ¬ k ∈ catalogKeys (p :: m) := by
          simp only [catalogKeys_cons, List.mem_cons]
          rintro (hc | hc)
          · exact h hc.symm
          · exact hm hc
        rw [if_neg hk, catalogKeys_cons, catalogKeys_cons, ih, if_neg hm, List.cons_append]

theorem mapGet_mapSet (m : Catalog) (k : String) (v : RouteVal) (n : String) :
    mapGet (mapSet m k v) n = if n = k then some v else mapGet m n := by
  induction m with
  | nil =>
    rw [show mapSet [] k v = [(k, v)] from rfl, mapGet_cons]
    by_cases h : n = k
    · simp [h]
    · have hkn : ¬ k = n := fun hc => h hc.symm
      simp [h, hkn]
  | cons p m ih =>
    by_cases h : p.1 = k
    · rw [show mapSet (p :: m) k v = (k, v) :: m from by simp [mapSet, h],
        mapGet_cons, mapGet_cons]
      by_cases hn : n = k
      · simp [hn]
      · have hkn : ¬ k = n := fun hc => hn hc.symm
        have hpn : ¬ p.1 = n := by
          rw [h]
          exact hkn
        simp [hkn, hpn, hn]
    · rw [show mapSet (p :: m) k v = p :: mapSet m k v from by simp [mapSet, h],
        mapGet_cons, mapGet_cons, ih]
      by_cases hp : p.1 = n
      · have hn : ¬ n = k := fun hc => h (hp.trans hc)
        simp [hp, hn]
      · simp [hp]

theorem loadRoutes_go_get :
    ∀ (rs : List RawRoute) (m : Catalog) (n : String),
      mapGet (rs.foldl (fun m r =>
          match routeEntry r with
          | none => m
          | some (k, v) => mapSet m k v) m) n
        = (lastEntryFor rs n).or (mapGet m n) := by
  intro rs
  induction rs with
  | nil =>
    intro m n
    simp [lastEntryFor, validEntries]
  | cons r rs ih =>
    intro m n
    rw [List.foldl_cons]
    cases he : routeEntry r with
    | none =>
      simp only [he]
      rw [ih]
      simp [lastEntryFor, validEntries, List.filterMap_cons, he]
    | some kv =>
      obtain ⟨k, v⟩ := kv
      simp only [he]
      rw [ih, mapGet_mapSet]
      simp only [lastEntryFor, validEntries, List.filterMap_cons, he,
        List.reverse_cons, List.find?_append, Option.map_or']
      rw [Option.or_assoc]
      have hsingle :
          ((List.find? (fun p => p.1 == n) [(k, v)]).map Prod.snd).or (mapGet m n)
            = if n = k then some v else mapGet m n := by
        by_cases hn : n = k
        · have hb : (k == n) = true := beq_iff_eq.mpr hn.symm
          simp [List.find?, hb, hn]
        · have hb : (k == n) = false := beq_eq_false_iff_ne.mpr (fun hc => hn hc.symm)
          simp [List.find?, hb, hn]
      rw [hsingle]

theorem loadRoutes_get (rs : List RawRoute) (n : String) :
    mapGet (loadRoutes rs) n = lastEntryFor rs n := by
  rw [loadRoutes, loadRoutes_go_get rs [] n]
  simp [mapGet, Option.or_none]

theorem loadRoutes_go_keys :
    ∀ (rs : List RawRoute) (m : Catalog),
      catalogKeys (rs.foldl (fun m r =>
          match routeEntry r with
          | none => m
          | some (k, v) => mapSet m k v) m)
        = ((validEntries rs).map Prod.fst).foldl
            (fun acc nm => if nm ∈ acc then acc else acc ++ [nm]) (catalogKeys m) := by
  intro rs
  induction rs with
  | nil => intro m; simp [validEntries]
  | cons r rs ih =>
    intro m
    rw [List.foldl_cons]
    cases he : routeEntry r with
    | none =>
      simp only [he]
      rw [ih]
      simp [validEntries, List.filterMap_cons, he]
    | some kv =>
      obtain ⟨k, v⟩ := kv
      simp only [he]
      rw [ih]
      simp only [validEntries, List.filterMap_cons, he, List.map_cons, List.foldl_cons]
      rw [catalogKeys_mapSet]

/-- C4 counterexample: two backend entries named A, the first with
width 7, the second with width 6.  After the rebuild the catalog holds
the second entry's data for A: Map.set overrides the earlier value, so
the first occurrence does not win for the stored attributes. -/
theorem C4_duplicate_override_cex :
    mapGet (loadRoutes
        [⟨some "A", some 7, some 10, some 50⟩,
         ⟨some "A", some 6, some 8, some 40⟩]) "A"
      = some ⟨some 6, some 8, some 40⟩ ∧
    some (RouteVal.mk (some 6) (some 8) (some 40))
      ≠ some (RouteVal.mk (some 7) (some 10) (some 50)) := by
  constructor
  · norm_num [mapGet, loadRoutes, routeEntry, mapSet, List.find?]
  · intro hc
    have h6 := (RouteVal.mk.injEq _ _ _ _ _ _).mp (Option.some_inj.mp hc)
    have : (6 : ℚ) = 7 := Option.some_inj.mp h6.1
    norm_num at this

/-- C4 (amended): rebuilding the catalog keeps the backend name order
deduplicated by first occurrence (a later duplicate neither re-inserts
the name nor moves it), and entries with a missing or empty name are
skipped silently; but the value stored under a duplicated name is the
last surviving entry's data, because Map.set overrides the earlier
entry's value. -/
theorem C4_catalog_rebuild (rs : List RawRoute) (n : String) :
    catalogKeys (loadRoutes rs) = dedupFirst ((validEntries rs).map Prod.fst) ∧
    mapGet (loadRoutes rs) n = lastEntryFor rs n ∧
    (∀ r : RawRoute, r.name = none → routeEntry r = none) ∧
    (∀ r : RawRoute, r.name = some "" → routeEntry r = none) := by
  refine ⟨?_, loadRoutes_get rs n, ?_, ?_⟩
  · rw [loadRoutes, loadRoutes_go_keys rs []]
    rfl
  · intro r hr
    simp [routeEntry, hr]
  · intro r hr
    simp [routeEntry, hr]

theorem C4_catalog_rebuild_witness :
    routeEntry ⟨none, some 1, some 2, some 3⟩ = none ∧
    routeEntry ⟨some "", some 1, some 2, some 3⟩ = none ∧
    mapGet (loadRoutes [⟨some "B", some 1, some 2, some 3⟩]) "B"
      = lastEntryFor [⟨some "B", some 1, some 2, some 3⟩] "B" :=
  ⟨(C4_catalog_rebuild [] "B").2.2.1 ⟨none, some 1, some 2, some 3⟩ rfl,
   (C4_catalog_rebuild [] "B").2.2.2 ⟨some "", some 1, some 2, some 3⟩ rfl,
   (C4_catalog_rebuild [⟨some "B", some 1, some 2, some 3⟩] "B").2.1⟩

theorem coordsLL_cons (c : CoordItem) (cs : List CoordItem) :
    coordsLL (c :: cs)
      = match parseCoordItem c with
        | some q => q :: coordsLL cs
        | none => coordsLL cs := by
  rcases c with ⟨x, y⟩ | _
  · cases x <;> cases y <;> rfl
  · rfl

theorem coordsLL_eq_filterMap (cs : List CoordItem) :
    coordsLL cs = cs.filterMap parseCoordItem := by
  induction cs with
  | nil => rfl
  | cons c cs ih =>
    rw [coordsLL_cons, List.filterMap_cons]
    cases parseCoordItem c <;> simp [ih]

theorem pointsLL_cons (p : PtObj) (ps : List PtObj) :
    pointsLL (p :: ps)
      = match parsePtObj p with
        | some q => q :: pointsLL ps
        | none => pointsLL ps := by
  rcases p with ⟨x, y⟩
  cases x <;> cases y <;> rfl

theorem pointsLL_eq_filterMap (ps : List PtObj) :
    pointsLL ps = ps.filterMap parsePtObj := by
  induction ps with
  | nil => rfl
  | cons p ps ih =>
    rw [pointsLL_cons, List.filterMap_cons]
    cases parsePtObj p <;> simp [ih]

theorem normalizePoints_cases (t : Trip) :
    normalizePoints t = pointsLL (t.points.getD []) ∨ normalizePoints t = [] := by
  rcases t with ⟨co, po⟩
  cases po with
  | none => right; rfl
  | some ps =>
    simp only [normalizePoints, Option.getD_some]
    split_ifs with h1 h2
    · right; rfl
    · right; rfl
    · left; rfl

/-- C8: each coordinate pipeline keeps a pair exactly when both of its
components parse to finite numbers: a trip's coords list, a trip's
points list and the top-level points list (which reuses the points
pipeline) all equal the in-order filterMap of the one-step valid parse;
every surviving pair has a source item parsing to it (so invalid pairs
are dropped, never defaulted or interpolated); an item that is not an
array, or has a non-finite component, parses to none; and the
normalizer's output is one of the two pipelines or empty. -/
theorem C8_pair_filtering :
    (∀ cs : List CoordItem, coordsLL cs = cs.filterMap parseCoordItem) ∧
    (∀ ps : List PtObj, pointsLL ps = ps.filterMap parsePtObj) ∧
    (∀ (cs : List CoordItem) (q : ℚ × ℚ), q ∈ coordsLL cs →
      ∃ item, item ∈ cs ∧ parseCoordItem item = some q) ∧
    (∀ (ps : List PtObj) (q : ℚ × ℚ), q ∈ pointsLL ps →
      ∃ p, p ∈ ps ∧ parsePtObj p = some q) ∧
    (∀ b : Option ℚ, parseCoordItem (CoordItem.pair none b) = none) ∧
    (∀ a : Option ℚ, parseCoordItem (CoordItem.pair a none) = none) ∧
    parseCoordItem CoordItem.notArray = none ∧
    (∀ p : PtObj, p.lat = none ∨ p.lon = none → parsePtObj p = none) ∧
    (∀ t : Trip, normalizeLatLngsFromTrip t = coordsLL (t.coords.getD [])
      ∨ normalizeLatLngsFromTrip t = pointsLL (t.points.getD [])
      ∨ normalizeLatLngsFromTrip t = []) := by
  refine ⟨coordsLL_eq_filterMap, pointsLL_eq_filterMap, ?_, ?_, ?_, ?_, rfl, ?_, ?_⟩
  · intro cs q hq
    rw [coordsLL_eq_filterMap] at hq
    exact List.mem_filterMap.mp hq
  · intro ps q hq
    rw [pointsLL_eq_filterMap] at hq
    exact List.mem_filterMap.mp hq
  · intro b
    cases b <;> rfl
  · intro a
    cases a <;> rfl
  · intro p hp
    rcases p with ⟨x, y⟩
    rcases hp with hp | hp
    · rw [show x = none from hp]
      cases y <;> rfl
    · rw [show y = none from hp]
      cases x <;> rfl
  · intro t
    rcases ht : t.coords with _ | cs
    · rcases normalizePoints_cases t with h | h
      · right; left
        rw [show normalizeLatLngsFromTrip t = normalizePoints t from by
          rcases t with ⟨co, po⟩
          simp only at ht
          rw [show co = none from ht]
          rfl]
        exact h
      · right; right
        rw [show normalizeLatLngsFromTrip t = normalizePoints t from by
          rcases t with ⟨co, po⟩
          simp only at ht
          rw [show co = none from ht]
          rfl]
        exact h
    · have hn : normalizeLatLngsFromTrip t
          = if cs.isEmpty then normalizePoints t
            else if (coordsLL cs).isEmpty then normalizePoints t else coordsLL cs := by
        rcases t with ⟨co, po⟩
        simp only at ht
        rw [show co = some cs from ht]
        rfl
      rw [hn]
      split_ifs with h1 h2
      · rcases normalizePoints_cases t with h | h
        · right; left; exact h
        · right; right; exact h
      · rcases normalizePoints_cases t with h | h
        · right; left; exact h
        · right; right; exact h
      · left
        rfl

theorem C8_pair_filtering_witness :
    ∃ item, item ∈ [CoordItem.pair (some 1) none,
        CoordItem.pair (some 1) (some 2), CoordItem.notArray]
      ∧ parseCoordItem item = some ((1 : ℚ), (2 : ℚ)) := by
  apply C8_pair_filtering.2.2.1
  show ((1 : ℚ), (2 : ℚ)) ∈ coordsLL [CoordItem.pair (some 1) none,
    CoordItem.pair (some 1) (some 2), CoordItem.notArray]
  simp [coordsLL_cons, parseCoordItem]

theorem tripsFold_eq :
    ∀ (ts : List Trip) (acc : List (List (ℚ × ℚ)) × Nat),
      ts.foldl tripStep acc
        = (acc.1 ++ ts.filterMap goodPoly, acc.2 + (ts.filterMap goodPoly).length) := by
  intro ts
  induction ts with
  | nil => intro acc; simp
  | cons t ts ih =>
    intro acc
    rw [List.foldl_cons]
    by_cases h : (normalizeLatLngsFromTrip t).length < 2
    · have hg : goodPoly t = none := by simp [goodPoly, h]
      have hs : tripStep acc t = acc := by simp [tripStep, h]
      rw [hs, ih, List.filterMap_cons, hg]
    · have hg : goodPoly t = some (normalizeLatLngsFromTrip t) := by simp [goodPoly, h]
      have hs : tripStep acc t = (acc.1 ++ [normalizeLatLngsFromTrip t], acc.2 + 1) := by
        simp [tripStep, h]
      rw [hs, ih, List.filterMap_cons, hg]
      show (acc.1 ++ [normalizeLatLngsFromTrip t] ++ List.filterMap goodPoly ts,
            acc.2 + 1 + (List.filterMap goodPoly ts).length)
          = (acc.1 ++ (normalizeLatLngsFromTrip t :: List.filterMap goodPoly ts),
            acc.2 + (normalizeLatLngsFromTrip t :: List.filterMap goodPoly ts).length)
      rw [Prod.mk.injEq]
      constructor
      · simp
      · rw [List.length_cons]
        omega

/-- C9: a payload recognized as a GeoJSON FeatureCollection (type tag
plus a features array) always takes the GeoJSON branch, whatever its
trips or points fields hold; otherwise a non-empty trips list takes the
trips branch regardless of the points field, its polylines are exactly
the per-trip normalizations with at least two valid points, a trip with
fewer than two valid points yields no polyline, and the summary count
is the number of trips that produced a polyline. -/
theorem C9_shape_priority :
    (∀ (d : ApiData) (n : Nat), d.typeIsFC = true → d.features = some n →
      renderTripsFromApiData d = RenderResult.geoJSON n) ∧
    (∀ (d : ApiData) (ts : List Trip),
      ¬ (d.typeIsFC = true ∧ d.features.isSome) → d.trips = some ts → ts ≠ [] →
      renderTripsFromApiData d
        = RenderResult.tripLines (ts.filterMap goodPoly) (ts.filterMap goodPoly).length) ∧
    (∀ t : Trip, (normalizeLatLngsFromTrip t).length < 2 → goodPoly t = none) := by
  refine ⟨?_, ?_, ?_⟩
  · intro d n hfc hf
    have hcond : d.typeIsFC = true ∧ d.features.isSome := by
      constructor
      · exact hfc
      · rw [hf]
        rfl
    rw [renderTripsFromApiData, if_pos hcond, hf]
    rfl
  · intro d ts hnot htr hne
    have hemp : ts.isEmpty = false := by
      cases ts with
      | nil => exact absurd rfl hne
      | cons a l => rfl
    rw [renderTripsFromApiData, if_neg hnot]
    simp only [htr, hemp, Bool.false_eq_true, if_false, tripsFold_eq]
    simp
  · intro t h
    simp [goodPoly, h]

theorem C9_shape_priority_witness :
    renderTripsFromApiData
        ⟨true, some 2, some [⟨none, none⟩], none, none⟩
      = RenderResult.geoJSON 2 ∧
    renderTripsFromApiData
        ⟨false, none, some [⟨none, none⟩], none,
         some [⟨some 1, some 2⟩, ⟨some 3, some 4⟩]⟩
      = RenderResult.tripLines [] 0 := by
  constructor
  · exact C9_shape_priority.1 _ 2 rfl rfl
  · have hg : goodPoly (⟨none, none⟩ : Trip) = none :=
      C9_shape_priority.2.2 ⟨none, none⟩
        (by simp [normalizeLatLngsFromTrip, normalizePoints])
    have h := C9_shape_priority.2.1
      ⟨false, none, some [⟨none, none⟩], none,
       some [⟨some 1, some 2⟩, ⟨some 3, some 4⟩]⟩
      [⟨none, none⟩] (by simp) rfl (by simp)
    rw [h]
    simp [List.filterMap_cons, hg]

end Volovo
